import Mathlib

/-!
Verification of the `config-file` crate (`src/lib.rs`): loading a
configuration value from a file, selecting the deserialization format
(TOML, JSON, YAML, XML) from the file's extension.

Shallow embedding conventions:
* A file-system path is a list of bytes (`List Nat`, values < 256); byte 46
  is the character code of the dot and byte 47 of the slash.
* The file system is a partial map from paths to file contents (byte lists);
  `File::open` succeeding is modelled as the map being defined at the path.
* The third-party deserializers (`serde_json`, `toml`, `serde_xml_rs`,
  `serde_yaml`) are not code of this repository; they are modelled as
  parameters (`Decoders`), one decoding function per format, returning
  `Except` with an opaque `String` diagnostic, exactly as the dispatch in
  `from_config_file` treats them.
* Compile-time cargo features gating the four formats are modelled by a
  `Features` record of Booleans; a disabled format's match arm is absent,
  so its condition simply fails and control falls through to the default.
* `from_config_file` additionally returns the list of file-system and
  decoder events it performed, in order, so that claims about "no file I/O"
  and "no other decoder is tried" are statements about the trace.
-/

deriving instance DecidableEq for Except

/-- A file system: maps a path (list of bytes) to the contents of the file
at that path (list of bytes), or `none` when no file exists there. -/
def FileSystem : Type := List Nat → Option (List Nat)

/-- Split a path on `/` (byte 47) into raw segments, keeping empty ones. -/
def splitPath : List Nat → List (List Nat)
  | [] => [[]]
  | b :: rest =>
    let r := splitPath rest
    if b = 47 then [] :: r
    else
      match r with
      | s :: ss => (b :: s) :: ss
      | [] => [[b]]

/-- The path's normal components: raw segments with empty segments (from
repeated or trailing slashes, or the leading slash) and `.` (current-dir)
segments dropped, as Rust's `Path::components` does. -/
def validSegments (p : List Nat) : List (List Nat) :=
  (splitPath p).filter (fun s => ¬ (s = [] ∨ s = [46]))

/-- The final path segment: the last normal component, if any. The spec's
"final path segment" and the component `Path::file_name` inspects are both
this. -/
def lastSegment (p : List Nat) : Option (List Nat) :=
  (validSegments p).getLast?

/-- `Path::file_name`: the last component when it is a normal file name;
`none` when the path is empty, is a root, or ends in `..` (parent-dir). -/
def fileName (p : List Nat) : Option (List Nat) :=
  match lastSegment p with
  | some s => if s = [46, 46] then none else some s
  | none => none

/-- Split a byte list at its final dot (byte 46): returns the bytes before
and after the final dot, or `none` when no dot occurs. -/
def afterLastDot : List Nat → Option (List Nat × List Nat)
  | [] => none
  | b :: rest =>
    match afterLastDot rest with
    | some (pre, post) => some (b :: pre, post)
    | none => if b = 46 then some ([], rest) else none

/-- `Path::extension` on a file name: the portion after the final dot,
except that a name with no dot, or whose portion before the final dot is
empty (a hidden file such as `.toml`), has no extension. -/
def extensionOf (name : List Nat) : Option (List Nat) :=
  match afterLastDot name with
  | some (pre, post) => if pre = [] then none else some post
  | none => none

/-- Whether a byte is a UTF-8 continuation byte (`0x80`–`0xBF`). -/
def contByte (b : Nat) : Bool :=
  decide (0x80 ≤ b ∧ b ≤ 0xBF)

/-- UTF-8 decoding with explicit fuel (so the definition is structurally
recursive and reduces in the kernel); every step consumes at least one
byte, so fuel equal to the list length suffices. Rejects truncated
sequences, stray continuation bytes, overlong encodings, surrogates and
code points above `0x10FFFF`, as Rust's `OsStr::to_str` does. -/
def utf8DecodeAux : Nat → List Nat → Option (List Char)
  | _, [] => some []
  | 0, _ :: _ => none
  | fuel + 1, b :: rest =>
    if b < 0x80 then
      (utf8DecodeAux fuel rest).map (fun cs => Char.ofNat b :: cs)
    else if 0xC2 ≤ b ∧ b ≤ 0xDF then
      match rest with
      | b1 :: r =>
        if contByte b1 then
          (utf8DecodeAux fuel r).map
            (fun cs => Char.ofNat ((b % 0x20) * 0x40 + b1 % 0x40) :: cs)
        else none
      | [] => none
    else if 0xE0 ≤ b ∧ b ≤ 0xEF then
      match rest with
      | b1 :: b2 :: r =>
        if contByte b1 ∧ contByte b2 ∧ (b = 0xE0 → 0xA0 ≤ b1) ∧ (b = 0xED → b1 ≤ 0x9F) then
          (utf8DecodeAux fuel r).map
            (fun cs => Char.ofNat ((b % 0x10) * 0x1000 + (b1 % 0x40) * 0x40 + b2 % 0x40) :: cs)
        else none
      | _ => none
    else if 0xF0 ≤ b ∧ b ≤ 0xF4 then
      match rest with
      | b1 :: b2 :: b3 :: r =>
        if contByte b1 ∧ contByte b2 ∧ contByte b3 ∧ (b = 0xF0 → 0x90 ≤ b1) ∧ (b = 0xF4 → b1 ≤ 0x8F) then
          (utf8DecodeAux fuel r).map
            (fun cs => Char.ofNat ((b % 8) * 0x40000 + (b1 % 0x40) * 0x1000 + (b2 % 0x40) * 0x40 + b3 % 0x40) :: cs)
        else none
      | _ => none
    else none

/-- `OsStr::to_str`: decode a byte list as UTF-8, `none` when invalid. -/
def utf8Decode (bs : List Nat) : Option (List Char) :=
  utf8DecodeAux bs.length bs

/-- `str::to_lowercase` applied to a decoded extension. Rust lowercases per
Unicode; per-character ASCII lowercasing coincides with it on every input
relevant here, since no non-ASCII character Unicode-lowercases to a single
ASCII letter occurring in `toml`, `json`, `yaml`, `yml` or `xml`. -/
def lowercaseChars (cs : List Char) : List Char :=
  cs.map Char.toLower

/-- The lowercased extension string of a path: `path.extension()` followed
by `OsStr::to_str` and `to_lowercase`, as in `from_config_file` lines
51–54; `none` when the extension is absent or not valid UTF-8. -/
def extensionStr (p : List Nat) : Option (List Char) :=
  ((fileName p).bind extensionOf).bind
    (fun be => (utf8Decode be).map lowercaseChars)

/-- The closed set of format tags the dispatch distinguishes. -/
inductive FormatKind where
  | toml
  | json
  | yaml
  | xml
  | unknown
deriving DecidableEq, Repr

/-- Map a lowercased extension string to its format tag, matching the
arms of the `match` in `from_config_file` (json, toml, xml, yaml/yml, in
source order; anything else is unknown). -/
def tagOfExt (e : List Char) : FormatKind :=
  if e = "json".toList then .json
  else if e = "toml".toList then .toml
  else if e = "xml".toList then .xml
  else if e = "yaml".toList ∨ e = "yml".toList then .yaml
  else .unknown

/-- The format classification of a path: the lowercased extension matched
against the known extensions; absent or undecodable extension, or any
unmatched string, classifies as unknown. -/
def classifyFormat (p : List Nat) : FormatKind :=
  match extensionStr p with
  | some e => tagOfExt e
  | none => .unknown

/-- I/O error kinds relevant to the model: `File::open`/`read` on a missing
file yields a not-found error, `read_to_string` on non-UTF-8 bytes yields
an invalid-data error (both are `std::io::Error` kinds in the source). -/
inductive IoError where
  | notFound
  | invalidData
deriving DecidableEq, Repr

/-- `ConfigFileError` from the source: file access errors wrap the I/O
error; each format's parse error wraps the third-party decoder's
diagnostic (opaque here, kept as a string); unsupported format carries
nothing. -/
inductive ConfigFileError where
  | FileAccess (e : IoError)
  | Json (e : String)
  | Toml (e : String)
  | Xml (e : String)
  | Yaml (e : String)
  | UnsupportedFormat
deriving DecidableEq, Repr

/-- The cargo features of the build: which format decoders are compiled in.
In the source `toml` is on by default and the other three are optional. -/
structure Features where
  json : Bool
  toml : Bool
  xml : Bool
  yaml : Bool
deriving DecidableEq, Repr

/-- The build with every format feature enabled. -/
def Features.all : Features :=
  { json := true, toml := true, xml := true, yaml := true }

/-- The four third-party deserializers, modelled as parameters: the
streaming ones (`serde_json::from_reader`, `serde_xml_rs::from_reader`,
`serde_yaml::from_reader`) consume the opened file's bytes, while
`toml::from_str` consumes a decoded string; each produces a value of the
target type or a diagnostic. -/
structure Decoders (α : Type) where
  json : List Nat → Except String α
  toml : List Char → Except String α
  xml : List Nat → Except String α
  yaml : List Nat → Except String α

/-- Observable file-system and decoder events, in the order performed. -/
inductive FsEvent where
  | openFile (path : List Nat)
  | readToString (path : List Nat)
  | decodeJson
  | decodeToml
  | decodeXml
  | decodeYaml
deriving DecidableEq, Repr

/-- `open_file` from the source: `File::open(path).map_err(FileAccess)`;
in the model, opening yields the file's contents. -/
def open_file (fs : FileSystem) (p : List Nat) : Except ConfigFileError (List Nat) :=
  match fs p with
  | some bytes => .ok bytes
  | none => .error (.FileAccess .notFound)

/-- `std::fs::read_to_string`: fails with not-found when the file does not
exist and with invalid-data when its bytes are not valid UTF-8. -/
def read_to_string (fs : FileSystem) (p : List Nat) : Except IoError (List Char) :=
  match fs p with
  | none => .error .notFound
  | some bytes =>
    match utf8Decode bytes with
    | none => .error .invalidData
    | some s => .ok s

/-- `FromConfigFile::from_config_file`, instrumented with the event trace:
lowercase the extension, match it arm by arm in source order (an arm whose
feature is disabled is absent), dispatch to the format's decoder, and fall
through to `UnsupportedFormat`. -/
def from_config_file {α : Type} (feat : Features) (d : Decoders α)
    (fs : FileSystem) (p : List Nat) :
    Except ConfigFileError α × List FsEvent :=
  if feat.json = true ∧ extensionStr p = some "json".toList then
    match open_file fs p with
    | .error e => (.error e, [.openFile p])
    | .ok bytes =>
      match d.json bytes with
      | .ok v => (.ok v, [.openFile p, .decodeJson])
      | .error e => (.error (.Json e), [.openFile p, .decodeJson])
  else if feat.toml = true ∧ extensionStr p = some "toml".toList then
    match read_to_string fs p with
    | .error e => (.error (.FileAccess e), [.readToString p])
    | .ok s =>
      match d.toml s with
      | .ok v => (.ok v, [.readToString p, .decodeToml])
      | .error e => (.error (.Toml e), [.readToString p, .decodeToml])
  else if feat.xml = true ∧ extensionStr p = some "xml".toList then
    match open_file fs p with
    | .error e => (.error e, [.openFile p])
    | .ok bytes =>
      match d.xml bytes with
      | .ok v => (.ok v, [.openFile p, .decodeXml])
      | .error e => (.error (.Xml e), [.openFile p, .decodeXml])
  else if feat.yaml = true ∧ (extensionStr p = some "yaml".toList ∨ extensionStr p = some "yml".toList) then
    match open_file fs p with
    | .error e => (.error e, [.openFile p])
    | .ok bytes =>
      match d.yaml bytes with
      | .ok v => (.ok v, [.openFile p, .decodeYaml])
      | .error e => (.error (.Yaml e), [.openFile p, .decodeYaml])
  else
    (.error .UnsupportedFormat, [])

/-- The test target type's inner record (`TestConfigInner` in the source). -/
structure TestConfigInner where
  answer : Nat
deriving DecidableEq, Repr

/-- The test target type (`TestConfig` in the source). -/
structure TestConfig where
  host : String
  port : Nat
  tags : List String
  inner : TestConfigInner
deriving DecidableEq, Repr

/-- `TestConfig::example`: the literal value the test data files encode. -/
def TestConfig.example : TestConfig :=
  { host := "example.com"
    port := 443
    tags := ["example", "test"]
    inner := { answer := 42 } }

/-- Encode an ASCII string as path bytes. -/
def asciiBytes (s : String) : List Nat :=
  s.toList.map Char.toNat

/-- Whether the feature for a given format tag is enabled in the build. -/
def featureOn (feat : Features) : FormatKind → Bool
  | .json => feat.json
  | .toml => feat.toml
  | .xml => feat.xml
  | .yaml => feat.yaml
  | .unknown => false

/-- Map extension bytes to a tag: decode as UTF-8, lower-case, match. -/
def tagOfExtBytes (be : List Nat) : FormatKind :=
  match utf8Decode be with
  | some cs => tagOfExt (lowercaseChars cs)
  | none => .unknown

/-- Modelled from the spec: the classification rule exactly as claimed —
extract the substring after the final `.` in the final path segment,
lower-case it, and match it against the known set; an absent extension (no
dot in the segment) or an unmatched string classifies as unknown. -/
def specClassifyFormat (p : List Nat) : FormatKind :=
  match lastSegment p with
  | none => .unknown
  | some s =>
    match (afterLastDot s).map Prod.snd with
    | some be => tagOfExtBytes be
    | none => .unknown

/-- Modelled from the spec, amended: as `specClassifyFormat`, except that a
final segment beginning with `.` and containing no other `.` (a hidden
file such as `.toml`) counts as having no extension and classifies as
unknown. -/
def specClassifyFormatAmended (p : List Nat) : FormatKind :=
  match lastSegment p with
  | none => .unknown
  | some s =>
    if s.head? = some 46 ∧ ¬ 46 ∈ s.tail then .unknown
    else
      match (afterLastDot s).map Prod.snd with
      | some be => tagOfExtBytes be
      | none => .unknown

/-- Fixture: decoders that succeed with the example value on any input. -/
def exampleDecoders : Decoders TestConfig :=
  { json := fun _ => .ok TestConfig.example
    toml := fun _ => .ok TestConfig.example
    xml := fun _ => .ok TestConfig.example
    yaml := fun _ => .ok TestConfig.example }

/-- Fixture: decoders that fail with a format-specific diagnostic. -/
def failingDecoders : Decoders TestConfig :=
  { json := fun _ => .error "json syntax error"
    toml := fun _ => .error "toml syntax error"
    xml := fun _ => .error "xml syntax error"
    yaml := fun _ => .error "yaml syntax error" }

/-- Fixture: a file system holding the four test data files. -/
def exampleFs : FileSystem := fun p =>
  if p = asciiBytes "testdata/config.json" then some (asciiBytes "j")
  else if p = asciiBytes "testdata/config.toml" then some (asciiBytes "t")
  else if p = asciiBytes "testdata/config.xml" then some (asciiBytes "x")
  else if p = asciiBytes "testdata/config.yml" then some (asciiBytes "y")
  else none

/-- Fixture: a file system with no files. -/
def emptyFs : FileSystem := fun _ => none

/-- Fixture: a file system holding one `.toml` file whose single byte
`0xFF` is not valid UTF-8. -/
def invalidUtf8Fs : FileSystem := fun p =>
  if p = asciiBytes "testdata/bad.toml" then some [255] else none

/-- Fixture: the path `a.` followed by the byte `0xFF`, so the extension
bytes `[255]` are not valid UTF-8. -/
def badExtPath : List Nat :=
  asciiBytes "a." ++ [255]

lemma afterLastDot_eq_none {s : List Nat} : afterLastDot s = none ↔ 46 ∉ s := by
  induction s with
  | nil => simp [afterLastDot]
  | cons b rest ih =>
    unfold afterLastDot
    cases h : afterLastDot rest with
    | some pp =>
      obtain ⟨pre, post⟩ := pp
      have h46 : 46 ∈ rest := by
        by_contra hc
        rw [ih.mpr hc] at h
        simp at h
      simp [List.mem_cons, h46]
    | none =>
      by_cases hb : b = 46
      · simp [hb, List.mem_cons]
      · simp [hb, List.mem_cons, ih.mp h]
        exact fun hc => hb hc.symm

lemma afterLastDot_eq_some {s pre post : List Nat}
    (h : afterLastDot s = some (pre, post)) :
    s = pre ++ 46 :: post ∧ 46 ∉ post := by
  induction s generalizing pre post with
  | nil => simp [afterLastDot] at h
  | cons b rest ih =>
    unfold afterLastDot at h
    cases h2 : afterLastDot rest with
    | some pp =>
      obtain ⟨p2, q2⟩ := pp
      rw [h2] at h
      simp at h
      obtain ⟨h3, h4⟩ := h
      obtain ⟨hs, hn⟩ := ih h2
      subst h3 h4
      exact ⟨by simp [hs], hn⟩
    | none =>
      rw [h2] at h
      by_cases hb : b = 46
      · rw [if_pos hb] at h
        simp at h
        obtain ⟨h3, h4⟩ := h
        subst h3 h4 hb
        exact ⟨rfl, afterLastDot_eq_none.mp h2⟩
      · rw [if_neg hb] at h
        cases h

lemma afterLastDot_head_dot {t : List Nat} (h : 46 ∉ t) :
    afterLastDot (46 :: t) = some ([], t) := by
  unfold afterLastDot
  rw [afterLastDot_eq_none.mpr h]
  simp

lemma tagOfExt_eq_json {e : List Char} : tagOfExt e = .json ↔ e = "json".toList := by
  unfold tagOfExt
  repeat' split
  all_goals simp_all

lemma tagOfExt_eq_toml {e : List Char} : tagOfExt e = .toml ↔ e = "toml".toList := by
  unfold tagOfExt
  repeat' split
  all_goals simp_all

lemma tagOfExt_eq_xml {e : List Char} : tagOfExt e = .xml ↔ e = "xml".toList := by
  unfold tagOfExt
  repeat' split
  all_goals simp_all

lemma tagOfExt_eq_yaml {e : List Char} :
    tagOfExt e = .yaml ↔ e = "yaml".toList ∨ e = "yml".toList := by
  unfold tagOfExt
  repeat' split
  all_goals simp_all

lemma classify_json_ext {p : List Nat} (h : classifyFormat p = .json) :
    extensionStr p = some "json".toList := by
  unfold classifyFormat at h
  cases hext : extensionStr p with
  | none => rw [hext] at h; exact absurd h (by decide)
  | some e => rw [hext] at h; rw [tagOfExt_eq_json.mp h]

lemma classify_toml_ext {p : List Nat} (h : classifyFormat p = .toml) :
    extensionStr p = some "toml".toList := by
  unfold classifyFormat at h
  cases hext : extensionStr p with
  | none => rw [hext] at h; exact absurd h (by decide)
  | some e => rw [hext] at h; rw [tagOfExt_eq_toml.mp h]

lemma classify_xml_ext {p : List Nat} (h : classifyFormat p = .xml) :
    extensionStr p = some "xml".toList := by
  unfold classifyFormat at h
  cases hext : extensionStr p with
  | none => rw [hext] at h; exact absurd h (by decide)
  | some e => rw [hext] at h; rw [tagOfExt_eq_xml.mp h]

lemma classify_yaml_ext {p : List Nat} (h : classifyFormat p = .yaml) :
    extensionStr p = some "yaml".toList ∨ extensionStr p = some "yml".toList := by
  unfold classifyFormat at h
  cases hext : extensionStr p with
  | none => rw [hext] at h; exact absurd h (by decide)
  | some e =>
    rw [hext] at h
    rcases tagOfExt_eq_yaml.mp h with h1 | h1
    · exact Or.inl (by rw [h1])
    · exact Or.inr (by rw [h1])

lemma fcf_json_branch {α : Type} (feat : Features) (d : Decoders α) (fs : FileSystem)
    (p : List Nat) (hf : feat.json = true) (he : extensionStr p = some "json".toList) :
    from_config_file feat d fs p =
      (match open_file fs p with
        | .error e => (.error e, [.openFile p])
        | .ok bytes =>
          match d.json bytes with
          | .ok v => (.ok v, [.openFile p, .decodeJson])
          | .error e => (.error (.Json e), [.openFile p, .decodeJson])) := by
  unfold from_config_file
  rw [if_pos ⟨hf, he⟩]

lemma fcf_toml_branch {α : Type} (feat : Features) (d : Decoders α) (fs : FileSystem)
    (p : List Nat) (hf : feat.toml = true) (he : extensionStr p = some "toml".toList) :
    from_config_file feat d fs p =
      (match read_to_string fs p with
        | .error e => (.error (.FileAccess e), [.readToString p])
        | .ok s =>
          match d.toml s with
          | .ok v => (.ok v, [.readToString p, .decodeToml])
          | .error e => (.error (.Toml e), [.readToString p, .decodeToml])) := by
  unfold from_config_file
  rw [if_neg (fun hc => absurd (hc.2.symm.trans he) (by decide)), if_pos ⟨hf, he⟩]

lemma fcf_xml_branch {α : Type} (feat : Features) (d : Decoders α) (fs : FileSystem)
    (p : List Nat) (hf : feat.xml = true) (he : extensionStr p = some "xml".toList) :
    from_config_file feat d fs p =
      (match open_file fs p with
        | .error e => (.error e, [.openFile p])
        | .ok bytes =>
          match d.xml bytes with
          | .ok v => (.ok v, [.openFile p, .decodeXml])
          | .error e => (.error (.Xml e), [.openFile p, .decodeXml])) := by
  unfold from_config_file
  rw [if_neg (fun hc => absurd (hc.2.symm.trans he) (by decide)),
    if_neg (fun hc => absurd (hc.2.symm.trans he) (by decide)), if_pos ⟨hf, he⟩]

lemma fcf_yaml_branch {α : Type} (feat : Features) (d : Decoders α) (fs : FileSystem)
    (p : List Nat) (hf : feat.yaml = true)
    (he : extensionStr p = some "yaml".toList ∨ extensionStr p = some "yml".toList) :
    from_config_file feat d fs p =
      (match open_file fs p with
        | .error e => (.error e, [.openFile p])
        | .ok bytes =>
          match d.yaml bytes with
          | .ok v => (.ok v, [.openFile p, .decodeYaml])
          | .error e => (.error (.Yaml e), [.openFile p, .decodeYaml])) := by
  unfold from_config_file
  rcases he with h1 | h1 <;>
    rw [if_neg (fun hc => absurd (hc.2.symm.trans h1) (by decide)),
      if_neg (fun hc => absurd (hc.2.symm.trans h1) (by decide)),
      if_neg (fun hc => absurd (hc.2.symm.trans h1) (by decide))]
  · rw [if_pos ⟨hf, Or.inl h1⟩]
  · rw [if_pos ⟨hf, Or.inr h1⟩]

lemma fcf_ext_none {α : Type} (feat : Features) (d : Decoders α) (fs : FileSystem)
    (p : List Nat) (h : extensionStr p = none) :
    from_config_file feat d fs p = (.error .UnsupportedFormat, []) := by
  unfold from_config_file
  rw [h]
  simp

/-- C1: for every enabled format, loading a well-formed file of that format
encoding the literal `{host: "example.com", port: 443, tags: ["example",
"test"], inner: {answer: 42}}` into the matching target type returns `Ok`
of a value structurally equal to that literal, independently of which
format the file was written in. Well-formedness of each file and
correctness of each third-party decoder are the hypotheses relating the
file's bytes to the literal. -/
theorem c1_loads_example_literal (feat : Features) (d : Decoders TestConfig)
    (fs : FileSystem) (pj pt px py Bj Bx By : List Nat) (St : List Char)
    (hfj : feat.json = true) (hft : feat.toml = true)
    (hfx : feat.xml = true) (hfy : feat.yaml = true)
    (hcj : classifyFormat pj = .json) (hct : classifyFormat pt = .toml)
    (hcx : classifyFormat px = .xml) (hcy : classifyFormat py = .yaml)
    (hj : fs pj = some Bj) (hdj : d.json Bj = .ok TestConfig.example)
    (ht : read_to_string fs pt = .ok St) (hdt : d.toml St = .ok TestConfig.example)
    (hx : fs px = some Bx) (hdx : d.xml Bx = .ok TestConfig.example)
    (hy : fs py = some By) (hdy : d.yaml By = .ok TestConfig.example) :
    (from_config_file feat d fs pj).1 = .ok TestConfig.example ∧
    (from_config_file feat d fs pt).1 = .ok TestConfig.example ∧
    (from_config_file feat d fs px).1 = .ok TestConfig.example ∧
    (from_config_file feat d fs py).1 = .ok TestConfig.example := by
  refine ⟨?_, ?_, ?_, ?_⟩
  · rw [fcf_json_branch feat d fs pj hfj (classify_json_ext hcj)]
    simp [open_file, hj, hdj]
  · rw [fcf_toml_branch feat d fs pt hft (classify_toml_ext hct)]
    simp [ht, hdt]
  · rw [fcf_xml_branch feat d fs px hfx (classify_xml_ext hcx)]
    simp [open_file, hx, hdx]
  · rw [fcf_yaml_branch feat d fs py hfy (classify_yaml_ext hcy)]
    simp [open_file, hy, hdy]

theorem c1_witness :
    (from_config_file Features.all exampleDecoders exampleFs
        (asciiBytes "testdata/config.json")).1 = .ok TestConfig.example ∧
    (from_config_file Features.all exampleDecoders exampleFs
        (asciiBytes "testdata/config.toml")).1 = .ok TestConfig.example ∧
    (from_config_file Features.all exampleDecoders exampleFs
        (asciiBytes "testdata/config.xml")).1 = .ok TestConfig.example ∧
    (from_config_file Features.all exampleDecoders exampleFs
        (asciiBytes "testdata/config.yml")).1 = .ok TestConfig.example :=
  c1_loads_example_literal Features.all exampleDecoders exampleFs
    (asciiBytes "testdata/config.json") (asciiBytes "testdata/config.toml")
    (asciiBytes "testdata/config.xml") (asciiBytes "testdata/config.yml")
    (asciiBytes "j") (asciiBytes "x") (asciiBytes "y") "t".toList
    rfl rfl rfl rfl
    (by decide) (by decide) (by decide) (by decide)
    (by decide) rfl
    (by decide) rfl
    (by decide) rfl
    (by decide) rfl

/-- C2: for every path whose extension is absent or, after lower-casing,
not in `{toml, json, yaml, yml, xml}`, loading returns the
`UnsupportedFormat` error and performs no file open or read (the event
trace is empty). -/
theorem c2_unsupported_no_io {α : Type} (feat : Features) (d : Decoders α)
    (fs : FileSystem) (p : List Nat)
    (h : ∀ e, extensionStr p = some e →
      ¬ (e = "toml".toList ∨ e = "json".toList ∨ e = "yaml".toList ∨
        e = "yml".toList ∨ e = "xml".toList)) :
    from_config_file feat d fs p = (.error .UnsupportedFormat, []) := by
  unfold from_config_file
  rw [if_neg (fun hc => h _ hc.2 (Or.inr (Or.inl rfl))),
    if_neg (fun hc => h _ hc.2 (Or.inl rfl)),
    if_neg (fun hc => h _ hc.2 (Or.inr (Or.inr (Or.inr (Or.inr rfl))))),
    if_neg (fun hc => hc.2.elim
      (fun h1 => h _ h1 (Or.inr (Or.inr (Or.inl rfl))))
      (fun h1 => h _ h1 (Or.inr (Or.inr (Or.inr (Or.inl rfl))))))]

theorem c2_witness :
    from_config_file Features.all failingDecoders exampleFs (asciiBytes "/tmp/foobar") =
      (.error .UnsupportedFormat, []) :=
  c2_unsupported_no_io Features.all failingDecoders exampleFs (asciiBytes "/tmp/foobar")
    (fun e he => by
      rw [show extensionStr (asciiBytes "/tmp/foobar") = none from by decide] at he
      cases he)

/-- C3: for every path with a supported and enabled extension referring
to a nonexistent file, loading returns the `FileAccess` error (never
`UnsupportedFormat`, never a parse error). -/
theorem c3_missing_file_access {α : Type} (feat : Features) (d : Decoders α)
    (fs : FileSystem) (p : List Nat) (hk : classifyFormat p ≠ .unknown)
    (hf : featureOn feat (classifyFormat p) = true) (hmiss : fs p = none) :
    (from_config_file feat d fs p).1 = .error (.FileAccess .notFound) := by
  cases hc : classifyFormat p with
  | unknown => exact absurd hc hk
  | json =>
    rw [hc] at hf
    simp only [featureOn] at hf
    rw [fcf_json_branch feat d fs p hf (classify_json_ext hc)]
    simp [open_file, hmiss]
  | toml =>
    rw [hc] at hf
    simp only [featureOn] at hf
    rw [fcf_toml_branch feat d fs p hf (classify_toml_ext hc)]
    simp [read_to_string, hmiss]
  | xml =>
    rw [hc] at hf
    simp only [featureOn] at hf
    rw [fcf_xml_branch feat d fs p hf (classify_xml_ext hc)]
    simp [open_file, hmiss]
  | yaml =>
    rw [hc] at hf
    simp only [featureOn] at hf
    rw [fcf_yaml_branch feat d fs p hf (classify_yaml_ext hc)]
    simp [open_file, hmiss]

theorem c3_witness :
    (from_config_file Features.all failingDecoders emptyFs
        (asciiBytes "/tmp/foobar.toml")).1 = .error (.FileAccess .notFound) :=
  c3_missing_file_access Features.all failingDecoders emptyFs
    (asciiBytes "/tmp/foobar.toml") (by decide) (by decide) rfl

/-- C5: for every readable file with a recognized, enabled extension whose
contents the selected decoder rejects, loading returns that format's parse
error (never `FileAccess`, never another format's error), and the trace
shows exactly one decode event, of the selected format. -/
theorem c5_parse_error {α : Type} (feat : Features) (d : Decoders α) (fs : FileSystem) :
    (∀ p B e, feat.json = true → classifyFormat p = .json → fs p = some B →
      d.json B = .error e →
      from_config_file feat d fs p = (.error (.Json e), [.openFile p, .decodeJson])) ∧
    (∀ p s e, feat.toml = true → classifyFormat p = .toml → read_to_string fs p = .ok s →
      d.toml s = .error e →
      from_config_file feat d fs p = (.error (.Toml e), [.readToString p, .decodeToml])) ∧
    (∀ p B e, feat.xml = true → classifyFormat p = .xml → fs p = some B →
      d.xml B = .error e →
      from_config_file feat d fs p = (.error (.Xml e), [.openFile p, .decodeXml])) ∧
    (∀ p B e, feat.yaml = true → classifyFormat p = .yaml → fs p = some B →
      d.yaml B = .error e →
      from_config_file feat d fs p = (.error (.Yaml e), [.openFile p, .decodeYaml])) := by
  refine ⟨?_, ?_, ?_, ?_⟩
  · intro p B e hf hc hfs hd
    rw [fcf_json_branch feat d fs p hf (classify_json_ext hc)]
    simp [open_file, hfs, hd]
  · intro p s e hf hc hrd hd
    rw [fcf_toml_branch feat d fs p hf (classify_toml_ext hc)]
    simp [hrd, hd]
  · intro p B e hf hc hfs hd
    rw [fcf_xml_branch feat d fs p hf (classify_xml_ext hc)]
    simp [open_file, hfs, hd]
  · intro p B e hf hc hfs hd
    rw [fcf_yaml_branch feat d fs p hf (classify_yaml_ext hc)]
    simp [open_file, hfs, hd]

theorem c5_witness :
    from_config_file Features.all failingDecoders exampleFs
        (asciiBytes "testdata/config.json") =
      (.error (.Json "json syntax error"),
        [.openFile (asciiBytes "testdata/config.json"), .decodeJson]) :=
  (c5_parse_error Features.all failingDecoders exampleFs).1
    (asciiBytes "testdata/config.json") (asciiBytes "j") "json syntax error"
    rfl (by decide) (by decide) rfl

/-- C6: classification is invariant under changes of letter case in the
extension: two paths whose extensions decode to strings equal up to
lower-casing classify to the same format tag. -/
theorem c6_classify_case_insensitive (p q np nq be bq : List Nat) (e e' : List Char)
    (hp : fileName p = some np) (hq : fileName q = some nq)
    (hep : extensionOf np = some be) (heq : extensionOf nq = some bq)
    (hdp : utf8Decode be = some e) (hdq : utf8Decode bq = some e')
    (hcase : lowercaseChars e = lowercaseChars e') :
    classifyFormat p = classifyFormat q := by
  unfold classifyFormat extensionStr
  rw [hp, hq]
  simp [Option.bind, hep, heq, hdp, hdq, hcase]

theorem c6_witness :
    classifyFormat (asciiBytes "config.TOML") = classifyFormat (asciiBytes "config.toml") :=
  c6_classify_case_insensitive
    (asciiBytes "config.TOML") (asciiBytes "config.toml")
    (asciiBytes "config.TOML") (asciiBytes "config.toml")
    (asciiBytes "TOML") (asciiBytes "toml")
    "TOML".toList "toml".toList
    (by decide) (by decide) (by decide) (by decide) (by decide) (by decide) (by decide)

/-- C7: loading is deterministic and stateless: the result depends only on
the file's contents at the given path, so two calls on the same path while
those contents are unchanged yield equal results. -/
theorem c7_deterministic {α : Type} (feat : Features) (d : Decoders α)
    (p : List Nat) (fs1 fs2 : FileSystem) (h : fs1 p = fs2 p) :
    from_config_file feat d fs1 p = from_config_file feat d fs2 p := by
  unfold from_config_file open_file read_to_string
  rw [h]

theorem c7_witness :
    from_config_file Features.all failingDecoders exampleFs (asciiBytes "/nope.toml") =
      from_config_file Features.all failingDecoders invalidUtf8Fs (asciiBytes "/nope.toml") :=
  c7_deterministic Features.all failingDecoders (asciiBytes "/nope.toml")
    exampleFs invalidUtf8Fs (by decide)

/-- C8: on the TOML path the whole file is first read as text (the trace is
a single read-to-string event, no decode), and a read failure or a
UTF-8 decode failure of the file's bytes is reported as `FileAccess`,
never as the `Toml` parse error. -/
theorem c8_toml_read_failure_fileaccess {α : Type} (feat : Features) (d : Decoders α)
    (fs : FileSystem) (p : List Nat) (hf : feat.toml = true)
    (hc : classifyFormat p = .toml) :
    (fs p = none →
      from_config_file feat d fs p = (.error (.FileAccess .notFound), [.readToString p])) ∧
    (∀ B, fs p = some B → utf8Decode B = none →
      from_config_file feat d fs p = (.error (.FileAccess .invalidData), [.readToString p])) := by
  constructor
  · intro hmiss
    rw [fcf_toml_branch feat d fs p hf (classify_toml_ext hc)]
    simp [read_to_string, hmiss]
  · intro B hB hdec
    rw [fcf_toml_branch feat d fs p hf (classify_toml_ext hc)]
    simp [read_to_string, hB, hdec]

theorem c8_witness :
    from_config_file Features.all failingDecoders invalidUtf8Fs
        (asciiBytes "testdata/bad.toml") =
      (.error (.FileAccess .invalidData), [.readToString (asciiBytes "testdata/bad.toml")]) :=
  (c8_toml_read_failure_fileaccess Features.all failingDecoders invalidUtf8Fs
    (asciiBytes "testdata/bad.toml") rfl (by decide)).2 [255] (by decide) (by decide)

/-- C9: a path whose final component begins with `.` and contains no other
`.` (a hidden file such as `/tmp/.toml`) has no extension and loading
returns `UnsupportedFormat` with no file I/O. -/
theorem c9_hidden_file_unsupported {α : Type} (feat : Features) (d : Decoders α)
    (fs : FileSystem) (p t : List Nat)
    (hfn : fileName p = some (46 :: t)) (ht : 46 ∉ t) :
    from_config_file feat d fs p = (.error .UnsupportedFormat, []) := by
  apply fcf_ext_none
  unfold extensionStr
  rw [hfn]
  simp only [Option.bind]
  unfold extensionOf
  rw [afterLastDot_head_dot ht]
  simp

theorem c9_witness :
    from_config_file Features.all failingDecoders exampleFs (asciiBytes "/tmp/.toml") =
      (.error .UnsupportedFormat, []) :=
  c9_hidden_file_unsupported Features.all failingDecoders exampleFs
    (asciiBytes "/tmp/.toml") (asciiBytes "toml") (by decide) (by decide)

/-- C10: a path whose extension bytes are not valid UTF-8 (so `to_str`
returns `None`) loads to `UnsupportedFormat` with no file I/O, the same as
an absent extension. -/
theorem c10_nonutf8_ext_unsupported {α : Type} (feat : Features) (d : Decoders α)
    (fs : FileSystem) (p n be : List Nat)
    (hfn : fileName p = some n) (hext : extensionOf n = some be)
    (hdec : utf8Decode be = none) :
    from_config_file feat d fs p = (.error .UnsupportedFormat, []) := by
  apply fcf_ext_none
  unfold extensionStr
  rw [hfn]
  simp [Option.bind, hext, hdec]

lemma classifyFormat_eq_bytes (p : List Nat) :
    classifyFormat p =
      (match (fileName p).bind extensionOf with
        | some be => tagOfExtBytes be
        | none => .unknown) := by
  unfold classifyFormat extensionStr tagOfExtBytes
  cases h : (fileName p).bind extensionOf with
  | none => simp [h]
  | some be =>
    simp only [h, Option.bind]
    cases h2 : utf8Decode be with
    | none => simp [h2]
    | some cs => simp [h2]

/-- C4 counterexample: at the path `/tmp/.toml` the code's classification
is unknown, while the spec's rule (substring after the final dot of the
final segment) yields TOML, so the claimed equality fails. -/
theorem c4_counterexample :
    classifyFormat (asciiBytes "/tmp/.toml") ≠
      specClassifyFormat (asciiBytes "/tmp/.toml") := by
  decide

/-- C4 amended: classification equals the spec's rule amended with the
hidden-file exception — a final segment beginning with `.` and containing
no other `.` counts as having no extension and classifies as unknown. -/
theorem c4_amended_classification (p : List Nat) :
    classifyFormat p = specClassifyFormatAmended p := by
  rw [classifyFormat_eq_bytes]
  unfold specClassifyFormatAmended fileName
  cases hseg : lastSegment p with
  | none => rfl
  | some s =>
    dsimp only
    by_cases hdd : s = [46, 46]
    · subst hdd
      decide
    · rw [if_neg hdd]
      simp only [Option.bind]
      unfold extensionOf
      cases hald : afterLastDot s with
      | none =>
        have h46 : 46 ∉ s := afterLastDot_eq_none.mp hald
        have hhead : ¬ (s.head? = some 46 ∧ ¬ 46 ∈ s.tail) := by
          rintro ⟨h1, -⟩
          cases s with
          | nil => cases h1
          | cons a t =>
            simp at h1
            subst h1
            exact h46 (List.mem_cons_self 46 t)
        rw [if_neg hhead]
        rfl
      | some pp =>
        obtain ⟨pre, post⟩ := pp
        obtain ⟨hs, hnp⟩ := afterLastDot_eq_some hald
        by_cases hpre : pre = []
        · subst hpre
          simp only [List.nil_append] at hs
          have hcond : s.head? = some 46 ∧ ¬ 46 ∈ s.tail := by
            rw [hs]
            exact ⟨rfl, hnp⟩
          rw [if_pos hcond]
          simp
        · have hcond : ¬ (s.head? = some 46 ∧ ¬ 46 ∈ s.tail) := by
            rintro ⟨h1, h2⟩
            cases pre with
            | nil => exact hpre rfl
            | cons a pre2 =>
              rw [hs] at h2
              simp at h2
          rw [if_neg hcond]
          dsimp only
          rw [if_neg hpre]
          rfl

theorem c10_witness :
    from_config_file Features.all failingDecoders emptyFs badExtPath =
      (.error .UnsupportedFormat, []) :=
  c10_nonutf8_ext_unsupported Features.all failingDecoders emptyFs
    badExtPath (badExtPath) [255] (by decide) (by decide) (by decide)
